import Mathlib

set_option autoImplicit false

/-!
Shallow embedding of the codal-microbit-v2 mesh radio driver
(`MicroBitMeshRadio.cpp`, `MicroBitMeshRadioDatagram.cpp`,
`MicroBitMeshRadio.h`).  Machine integers are modelled by `Nat` with an
explicit `% 256` wherever a `uint8_t` store may wrap, and by `Int` for the
C `int` type.  Heap allocation (`new SequencedFrameBuffer()`) is modelled
by passing the allocation outcome as an explicit `Option` argument, and a
null-pointer dereference is modelled by an `Option` result.
-/

namespace MeshRadio

/-! ### Constants (ErrorNo.h, MicroBitMeshRadio.h, MicroBitRadio.h) -/

/-- codal `ErrorNo.h`: DEVICE_OK. -/
def DEVICE_OK : Int := 0

/-- codal `ErrorNo.h`: DEVICE_NO_RESOURCES. -/
def DEVICE_NO_RESOURCES : Int := -2

/-- codal `ErrorNo.h`: DEVICE_INVALID_PARAMETER. -/
def DEVICE_INVALID_PARAMETER : Int := -3

/-- codal `ErrorNo.h`: DEVICE_NOT_SUPPORTED. -/
def DEVICE_NOT_SUPPORTED : Int := -4

/-- MicroBitMeshRadio.h line 76. -/
def MICROBIT_MESH_RADIO_HEADER_SIZE : Nat := 4

/-- MicroBitMeshRadio.h line 77. -/
def MICROBIT_MESH_RADIO_MAXIMUM_RX_BUFFERS : Nat := 4

/-- Modelled from the spec: `MICROBIT_RADIO_MAXIMUM_RX_BUFFERS` comes from
the upstream `MicroBitRadio.h`, which is not part of this repository; the
spec fixes the receive-queue maximum at "4 in the reference configuration",
matching the in-repo sibling constant
`MICROBIT_MESH_RADIO_MAXIMUM_RX_BUFFERS`. -/
def MICROBIT_RADIO_MAXIMUM_RX_BUFFERS : Nat := 4

/-- Modelled from the spec: `MICROBIT_RADIO_MAX_PACKET_SIZE` comes from the
upstream configuration headers, not from this repository; the spec says the
payload bound is configurable and at most 250 bytes, and the upstream
default is 32.  All claims below hold for any positive value; 32 is used so
that every definition is executable. -/
def MICROBIT_RADIO_MAX_PACKET_SIZE : Nat := 32

/-- MicroBitMeshRadio.h line 88. -/
def MICROBIT_RADIO_PROTOCOL_DATAGRAM : Nat := 1

/-- MicroBitMeshRadio.h line 89. -/
def MICROBIT_RADIO_PROTOCOL_EVENTBUS : Nat := 2

/-- MicroBitMeshRadio.h line 92. -/
def MICROBIT_MESH_RADIO_EVT_DATAGRAM : Nat := 1

/-- Modelled from the spec: component id of the radio, from the upstream
codal headers (not in this repository); used only as an opaque event tag. -/
def DEVICE_ID_RADIO : Nat := 9

/-- Modelled from the spec: event id for the generic "data ready"
notification raised by dispatch for unrecognized protocols, from the
upstream codal headers (not in this repository); an opaque tag. -/
def DEVICE_ID_RADIO_DATA_READY : Nat := 10

/-- Upstream `MicroBitRadio.h` status flag, value 0x0001 as in the in-repo
sibling `MICROBIT_MESH_RADIO_STATUS_INITIALISED`. -/
def MICROBIT_RADIO_STATUS_INITIALISED : Nat := 1

/-! ### Data model -/

/-- `struct SequencedFrameBuffer` (MicroBitMeshRadio.h, lines 98-109).
The `next` pointer becomes list linkage; `payload` is the byte array,
modelled as the list of bytes that have been written to it. -/
structure SequencedFrameBuffer where
  length : Nat
  version : Nat
  group : Nat
  protocol : Nat
  seqNo : Nat
  payload : List Nat
  rssi : Int
  deriving Repr, DecidableEq

/-- The software-visible fields of `class MicroBitMeshRadio`
(MicroBitMeshRadio.h, lines 111-122).  `rxQueue` is the linked list of
queued frames (head first); `rxBuf` is the active receive buffer, `none`
modelling a NULL pointer. -/
structure RadioState where
  band : Nat
  power : Nat
  group : Nat
  queueDepth : Nat
  rssi : Int
  rxQueue : List SequencedFrameBuffer
  rxBuf : Option SequencedFrameBuffer
  blockTransmit : Bool
  currentSeqNo : Int
  status : Nat
  deriving Repr, DecidableEq

/-- Constructor `MicroBitMeshRadio::MicroBitMeshRadio` (lines 167-182):
band 8, power 6, group 0, queueDepth 0, rssi 0, rxQueue NULL, rxBuf NULL,
blockTransmit false, currentSeqNo 0. -/
def initRadioState : RadioState :=
  { band := 8, power := 6, group := 0, queueDepth := 0, rssi := 0,
    rxQueue := [], rxBuf := none, blockTransmit := false,
    currentSeqNo := 0, status := 0 }

/-- `new SequencedFrameBuffer()` value-initializes the POD struct, so a
freshly allocated buffer is all zeroes. -/
def zeroFrame : SequencedFrameBuffer :=
  { length := 0, version := 0, group := 0, protocol := 0, seqNo := 0,
    payload := [], rssi := 0 }

/-- The state after `enable()` succeeds for the first time (lines 346-459):
the first active receive buffer is allocated and the INITIALISED status bit
is recorded.  Hardware register programming is outside the state model. -/
def enabledInit : RadioState :=
  { initRadioState with
    rxBuf := some zeroFrame,
    status := initRadioState.status ||| MICROBIT_RADIO_STATUS_INITIALISED }

/-! ### Radio operations -/

/-- `MicroBitMeshRadio::getRSSI` (lines 333-339). -/
def getRSSI (st : RadioState) : Int :=
  if st.status &&& MICROBIT_RADIO_STATUS_INITIALISED = 0 then
    DEVICE_NOT_SUPPORTED
  else
    st.rssi

/-- `MicroBitMeshRadio::setRSSI` (lines 316-324). -/
def setRSSI (st : RadioState) (rssi : Int) : Int × RadioState :=
  if st.status &&& MICROBIT_RADIO_STATUS_INITIALISED = 0 then
    (DEVICE_NOT_SUPPORTED, st)
  else
    (DEVICE_OK, { st with rssi := rssi })

/-- `MicroBitMeshRadio::queueRxBuf` (lines 265-305).  The outcome of
`new SequencedFrameBuffer()` is passed in as `alloc` (`none` models
allocation failure).  On success the active buffer (with the RSSI value
stamped into it) is appended at the tail of `rxQueue`, `queueDepth` is
incremented (a `uint8_t` increment), and the fresh buffer becomes the
active one. -/
def queueRxBuf (st : RadioState) (alloc : Option SequencedFrameBuffer) :
    Int × RadioState :=
  match st.rxBuf with
  | none => (DEVICE_INVALID_PARAMETER, st)
  | some buf =>
    if st.queueDepth ≥ MICROBIT_RADIO_MAXIMUM_RX_BUFFERS then
      (DEVICE_NO_RESOURCES, st)
    else
      let stamped := { buf with rssi := getRSSI st }
      match alloc with
      | none => (DEVICE_NO_RESOURCES, { st with rxBuf := some stamped })
      | some newRxBuf =>
          (DEVICE_OK,
           { st with
               rxQueue := st.rxQueue ++ [stamped],
               queueDepth := (st.queueDepth + 1) % 256,
               rxBuf := some newRxBuf })

/-- `MicroBitMeshRadio::recv` (lines 567-584): pop the head of `rxQueue`
and decrement `queueDepth` (a `uint8_t` decrement) when the queue is
non-empty; return NULL otherwise. -/
def recv (st : RadioState) : Option SequencedFrameBuffer × RadioState :=
  match st.rxQueue with
  | [] => (none, st)
  | p :: rest =>
      (some p,
       { st with
         rxQueue := rest,
         queueDepth := (st.queueDepth + 255) % 256 })

/-- `MicroBitMeshRadio::dataReady` (lines 552-555). -/
def dataReady (st : RadioState) : Int :=
  (st.queueDepth : Int)

/-- `MicroBitMeshRadio::setGroup` (lines 498-510), with the external
`ble_running()` outcome passed in as `ble`. -/
def setGroup (st : RadioState) (ble : Bool) (group : Nat) :
    Int × RadioState :=
  if ble then (DEVICE_NOT_SUPPORTED, st)
  else (DEVICE_OK, { st with group := group % 256 })

/-- `MicroBitMeshRadio::compareSeqNo` (lines 656-662): compares the active
buffer's recorded `seqNo` against `newSeq`; when the comparison succeeds it
records `newSeq` into `currentSeqNo`.  Dereferencing `getRxBuf()` on a NULL
active buffer is modelled as `none`. -/
def compareSeqNo (st : RadioState) (newSeq : Int) :
    Option (Bool × RadioState) :=
  match st.rxBuf with
  | none => none
  | some buf =>
      let isGood := (buf.seqNo : Int) < newSeq
      if isGood then some (true, { st with currentSeqNo := newSeq })
      else some (false, st)

/-- The sequence-filter invocation performed by `mesh_RADIO_IRQHandler`
(line 76): the candidate passed to `compareSeqNo` is the active buffer's
own `seqNo` field, `instance->getRxBuf()->seqNo`. -/
def meshFilterDecision (st : RadioState) : Option (Bool × RadioState) :=
  match st.rxBuf with
  | none => none
  | some buf => compareSeqNo st (buf.seqNo : Int)

/-! ### Operation sequences over the receive queue -/

/-- The two operations of the receive queue named by the spec: enqueue
(`queueRxBuf`, with its allocation outcome) and dequeue (`recv`). -/
inductive RadioOp where
  | enqueue (alloc : Option SequencedFrameBuffer)
  | dequeue
  deriving Repr, DecidableEq

/-- State effect of one receive-queue operation. -/
def applyOp (st : RadioState) : RadioOp → RadioState
  | RadioOp.enqueue alloc => (queueRxBuf st alloc).2
  | RadioOp.dequeue => (recv st).2

/-- State after a sequence of receive-queue operations. -/
def applyOps (st : RadioState) : List RadioOp → RadioState
  | [] => st
  | op :: ops => applyOps (applyOp st op) ops

/-! ### Datagram service (MicroBitMeshRadioDatagram.cpp) -/

/-- Frame construction performed by
`MicroBitMeshRadioDatagram::send(uint8_t*, int)` (lines 120-134): the
stack frame handed to `radio.send`, or `none` when the guard rejects the
call (`buffer == NULL`, negative length, or length above
`MICROBIT_RADIO_MAX_PACKET_SIZE + MICROBIT_MESH_RADIO_HEADER_SIZE - 1`).
The method reads no field of the radio state while building the frame; the
state parameter mirrors the access the member function has through
`radio`.  The stack buffer's `seqNo` and `rssi` are not written by this
function (`seqNo` is stamped later inside `MicroBitMeshRadio::send`); they
are modelled as 0 and no theorem depends on them. -/
def datagramSendFrame (st : RadioState) (buffer : Option (List Nat))
    (len : Int) : Option SequencedFrameBuffer :=
  match st, buffer with
  | _, none => none
  | _, some bytes =>
    if len < 0 ∨
        len > (MICROBIT_RADIO_MAX_PACKET_SIZE : Int) +
              (MICROBIT_MESH_RADIO_HEADER_SIZE : Int) - 1 then
      none
    else
      some { length := (len.toNat + MICROBIT_MESH_RADIO_HEADER_SIZE - 1) % 256,
             version := 1,
             group := 0,
             protocol := MICROBIT_RADIO_PROTOCOL_DATAGRAM,
             seqNo := 0,
             payload := bytes.take len.toNat,
             rssi := 0 }

/-- Result of `MicroBitMeshRadioDatagram::recv(uint8_t*, int)`:
the returned int, the internal queue after the call, the bytes stored into
the caller's buffer by `memcpy` in the well-defined case, and the raw size
argument passed to `memcpy`. -/
structure DatagramRecvResult where
  ret : Int
  rxQueue : List SequencedFrameBuffer
  stored : List Nat
  copySize : Int
  deriving Repr, DecidableEq

/-- `MicroBitMeshRadioDatagram::recv(uint8_t*, int)` (lines 67-83).
`bufValid` models `buf != NULL`; `q` is the service's internal `rxQueue`.
The head frame is unconditionally unlinked and freed, `l = min(len,
p->length - (MICROBIT_MESH_RADIO_HEADER_SIZE - 1))` is passed to `memcpy`
as the copy size (recorded in `copySize`; when it is negative the C call
is undefined behaviour and `stored` records no bytes), and `l` is
returned. -/
def datagramRecv (bufValid : Bool) (q : List SequencedFrameBuffer)
    (len : Int) : DatagramRecvResult :=
  if bufValid = false ∨ len < 0 then ⟨DEVICE_INVALID_PARAMETER, q, [], 0⟩
  else
    match q with
    | [] => ⟨DEVICE_INVALID_PARAMETER, q, [], 0⟩
    | p :: rest =>
      let l : Int :=
        min len ((p.length : Int) - ((MICROBIT_MESH_RADIO_HEADER_SIZE : Int) - 1))
      ⟨l, rest, p.payload.take l.toNat, l⟩

/-- The count computed by the `while (p->next != NULL)` walk in
`MicroBitMeshRadioDatagram::packetReceived` (lines 187-192): `queueDepth`
is incremented once per link followed, so it counts the nodes after the
head — the list length minus one on a non-empty queue. -/
def tailWalkDepth : List SequencedFrameBuffer → Nat
  | [] => 0
  | [_] => 0
  | _ :: q :: rest => tailWalkDepth (q :: rest) + 1

/-- The internal-queue update performed by
`MicroBitMeshRadioDatagram::packetReceived` (lines 178-201): a packet
arriving at an empty internal queue becomes its sole element; otherwise
the tail walk computes `queueDepth`, the packet is deleted (queue kept
unchanged) when `queueDepth >= MICROBIT_MESH_RADIO_MAXIMUM_RX_BUFFERS`,
and appended at the tail otherwise. -/
def dgEnqueueInternal (q : List SequencedFrameBuffer)
    (packet : SequencedFrameBuffer) : List SequencedFrameBuffer :=
  match q with
  | [] => [packet]
  | _ :: _ =>
    if tailWalkDepth q ≥ MICROBIT_MESH_RADIO_MAXIMUM_RX_BUFFERS then q
    else q ++ [packet]

/-- Combined state of the radio controller, the datagram service's
internal queue, the event-bus handler's queue, and the list of events
raised on the message bus (pairs of source id and value). -/
structure SystemState where
  radioState : RadioState
  dgQueue : List SequencedFrameBuffer
  evQueue : List SequencedFrameBuffer
  events : List (Nat × Nat)
  deriving Repr, DecidableEq

/-- `MicroBitMeshRadioDatagram::packetReceived` (lines 173-204): dequeue
one frame from the radio with `radio.recv()`, update the internal queue as
in `dgEnqueueInternal`, and raise the datagram event unless the packet was
dropped (the drop branch returns early, before the `Event` line).  When
`radio.recv()` returns NULL the C code dereferences a NULL `packet`
pointer; that case is modelled as `none`. -/
def dgPacketReceived (s : SystemState) : Option SystemState :=
  match recv s.radioState with
  | (none, _) => none
  | (some packet, rst) =>
    if s.dgQueue ≠ [] ∧
        tailWalkDepth s.dgQueue ≥ MICROBIT_MESH_RADIO_MAXIMUM_RX_BUFFERS then
      some { s with radioState := rst }
    else
      some { s with
             radioState := rst,
             dgQueue := dgEnqueueInternal s.dgQueue packet,
             events := s.events ++
               [( DEVICE_ID_RADIO, MICROBIT_MESH_RADIO_EVT_DATAGRAM)] }

/-- Modelled from the spec: `MicroBitMeshRadioEvent::packetReceived` is
not part of this repository (only its call site in `idleCallback` is).
Per spec section 4.5 a protocol handler is responsible for consuming
(dequeuing) the head frame itself; the event-bus handler is modelled as
dequeuing the head frame into its own queue. -/
def evPacketReceived (s : SystemState) : SystemState :=
  match recv s.radioState with
  | (none, _) => s
  | (some packet, rst) =>
      { s with radioState := rst, evQueue := s.evQueue ++ [packet] }

/-- One iteration of the `while (rxQueue)` loop in
`MicroBitMeshRadio::idleCallback` (lines 516-545): route the head frame by
its protocol field; for an unrecognized protocol raise the generic
data-ready event.  The source then tests `p == rxQueue` (pointer
equality): both protocol handlers dequeue the head frame via `recv`, so
after them `p` is no longer the head, while the default branch leaves the
queue untouched, so the test holds exactly in the default branch, where
dispatch itself performs `recv()` and `delete p`.  In the datagram branch
the queue is non-empty, so `dgPacketReceived` is `some`; `getD s` never
takes its default there. -/
def idleStep (s : SystemState) : SystemState :=
  match s.radioState.rxQueue with
  | [] => s
  | p :: _ =>
    if p.protocol = MICROBIT_RADIO_PROTOCOL_DATAGRAM then
      (dgPacketReceived s).getD s
    else if p.protocol = MICROBIT_RADIO_PROTOCOL_EVENTBUS then
      evPacketReceived s
    else
      { s with
        radioState := (recv s.radioState).2,
        events := s.events ++ [( DEVICE_ID_RADIO_DATA_READY, p.protocol)] }

/-- Fuelled unfolding of the `while (rxQueue)` loop of `idleCallback`. -/
def idleLoop : Nat → SystemState → SystemState
  | 0, s => s
  | Nat.succ fuel, s =>
    match s.radioState.rxQueue with
    | [] => s
    | _ :: _ => idleLoop fuel (idleStep s)

/-- `MicroBitMeshRadio::idleCallback` (lines 516-545): the loop runs until
`rxQueue` is NULL.  Every iteration removes exactly the head frame, so
running the loop body `rxQueue.length` times computes the loop's exact
result (the termination theorem below shows the queue is then empty, i.e.
the fuel is not a truncation). -/
def idleCallback (s : SystemState) : SystemState :=
  idleLoop s.radioState.rxQueue.length s

/-- The receive-queue bookkeeping invariant of the spec: `queueDepth`
equals the live queue length and never exceeds the configured maximum. -/
def QueueInv (st : RadioState) : Prop :=
  st.queueDepth = st.rxQueue.length ∧
  st.queueDepth ≤ MICROBIT_RADIO_MAXIMUM_RX_BUFFERS

/-! ### Helper lemmas -/

theorem recv_cons (st : RadioState) (p : SequencedFrameBuffer)
    (rest : List SequencedFrameBuffer) (h : st.rxQueue = p :: rest) :
    recv st = (some p,
      { st with rxQueue := rest, queueDepth := (st.queueDepth + 255) % 256 }) := by
  unfold recv
  rw [h]

theorem queueInv_applyOp (st : RadioState) (op : RadioOp) (h : QueueInv st) :
    QueueInv (applyOp st op) := by
  obtain ⟨h1, h2⟩ := h
  cases op with
  | enqueue alloc =>
    show QueueInv (queueRxBuf st alloc).2
    unfold queueRxBuf
    cases hb : st.rxBuf with
    | none => exact ⟨h1, h2⟩
    | some buf =>
      simp only []
      by_cases hd : st.queueDepth ≥ MICROBIT_RADIO_MAXIMUM_RX_BUFFERS
      · rw [if_pos hd]
        exact ⟨h1, h2⟩
      · rw [if_neg hd]
        cases alloc with
        | none => exact ⟨h1, h2⟩
        | some nb =>
          unfold MICROBIT_RADIO_MAXIMUM_RX_BUFFERS at hd
          refine ⟨?_, ?_⟩
          · show (st.queueDepth + 1) % 256 = (st.rxQueue ++ [_]).length
            simp only [List.length_append, List.length_singleton]
            rw [Nat.mod_eq_of_lt (by omega), h1]
          · show (st.queueDepth + 1) % 256 ≤ MICROBIT_RADIO_MAXIMUM_RX_BUFFERS
            unfold MICROBIT_RADIO_MAXIMUM_RX_BUFFERS
            omega
  | dequeue =>
    show QueueInv (recv st).2
    cases hq : st.rxQueue with
    | nil =>
      unfold recv
      rw [hq]
      exact ⟨h1, h2⟩
    | cons p rest =>
      rw [recv_cons st p rest hq]
      rw [hq] at h1
      simp only [List.length_cons] at h1
      unfold MICROBIT_RADIO_MAXIMUM_RX_BUFFERS at h2
      refine ⟨?_, ?_⟩
      · show (st.queueDepth + 255) % 256 = rest.length
        omega
      · show (st.queueDepth + 255) % 256 ≤ MICROBIT_RADIO_MAXIMUM_RX_BUFFERS
        unfold MICROBIT_RADIO_MAXIMUM_RX_BUFFERS
        omega

theorem queueInv_applyOps (ops : List RadioOp) (st : RadioState)
    (h : QueueInv st) : QueueInv (applyOps st ops) := by
  induction ops generalizing st with
  | nil => exact h
  | cons op ops ih => exact ih (applyOp st op) (queueInv_applyOp st op h)

theorem tailWalkDepth_eq (q : List SequencedFrameBuffer) (h : q ≠ []) :
    tailWalkDepth q = q.length - 1 := by
  induction q with
  | nil => simp at h
  | cons p rest ih =>
    cases rest with
    | nil => rfl
    | cons p2 rest2 =>
      rw [tailWalkDepth, ih (by simp)]
      simp only [List.length_cons]
      omega

theorem dgPacketReceived_cons (s : SystemState) (p : SequencedFrameBuffer)
    (rest : List SequencedFrameBuffer)
    (h : s.radioState.rxQueue = p :: rest) :
    ∃ t, dgPacketReceived s = some t ∧ t.radioState.rxQueue = rest := by
  unfold dgPacketReceived
  rw [recv_cons s.radioState p rest h]
  simp only []
  by_cases h2 : s.dgQueue ≠ [] ∧
      tailWalkDepth s.dgQueue ≥ MICROBIT_MESH_RADIO_MAXIMUM_RX_BUFFERS
  · rw [if_pos h2]
    exact ⟨_, rfl, rfl⟩
  · rw [if_neg h2]
    exact ⟨_, rfl, rfl⟩

theorem idleStep_rxQueue (s : SystemState) (p : SequencedFrameBuffer)
    (rest : List SequencedFrameBuffer)
    (h : s.radioState.rxQueue = p :: rest) :
    (idleStep s).radioState.rxQueue = rest := by
  unfold idleStep
  rw [h]
  simp only []
  by_cases h1 : p.protocol = MICROBIT_RADIO_PROTOCOL_DATAGRAM
  · rw [if_pos h1]
    obtain ⟨t, ht, hrest⟩ := dgPacketReceived_cons s p rest h
    rw [ht, Option.getD_some]
    exact hrest
  · rw [if_neg h1]
    by_cases h2 : p.protocol = MICROBIT_RADIO_PROTOCOL_EVENTBUS
    · rw [if_pos h2]
      unfold evPacketReceived
      rw [recv_cons s.radioState p rest h]
    · rw [if_neg h2]
      show (recv s.radioState).2.rxQueue = rest
      rw [recv_cons s.radioState p rest h]

theorem idleLoop_drains (n : Nat) (s : SystemState)
    (h : s.radioState.rxQueue.length ≤ n) :
    (idleLoop n s).radioState.rxQueue = [] := by
  induction n generalizing s with
  | zero =>
    rw [idleLoop]
    exact List.eq_nil_of_length_eq_zero (Nat.le_zero.mp h)
  | succ n ih =>
    rw [idleLoop]
    cases hq : s.radioState.rxQueue with
    | nil => simpa using hq
    | cons p rest =>
      apply ih
      rw [idleStep_rxQueue s p rest hq]
      rw [hq] at h
      simp only [List.length_cons] at h
      omega

/-! ### Claim theorems -/

/-- C1 (code_bug evidence): the sequence-filter invocation made by
`mesh_RADIO_IRQHandler` rejects every frame.  The handler passes
`getRxBuf()->seqNo` as the candidate, and `compareSeqNo` compares that
candidate against the very same field `getRxBuf()->seqNo`, so the strict
comparison is a self-comparison and is always false; no state changes.
The claim's accept-iff-strictly-greater filter (with its reference updated
on acceptance) therefore never accepts anything: acceptance of a frame
with a strictly larger sequence number than any previously accepted one is
impossible through this path. -/
theorem c1_irq_sequence_filter_rejects_every_frame (st : RadioState)
    (buf : SequencedFrameBuffer) (hbuf : st.rxBuf = some buf) :
    meshFilterDecision st = some (false, st) := by
  unfold meshFilterDecision compareSeqNo
  rw [hbuf]
  simp only [lt_self_iff_false, if_neg]
  simp

/-- Witness for C1's theorem at a concrete state: an in-flight frame with
sequence number 2 (strictly greater than every previously handled value)
is rejected by the filter. -/
theorem c1_irq_sequence_filter_rejects_every_frame_witness :
    meshFilterDecision
      { enabledInit with rxBuf := some { zeroFrame with seqNo := 2 } } =
    some (false,
      { enabledInit with rxBuf := some { zeroFrame with seqNo := 2 } }) :=
  c1_irq_sequence_filter_rejects_every_frame
    { enabledInit with rxBuf := some { zeroFrame with seqNo := 2 } }
    { zeroFrame with seqNo := 2 } rfl

/-- C2: after any sequence of enqueue (`queueRxBuf`) and dequeue (`recv`)
operations from the enabled initial state, `queueDepth` equals the length
of the receive queue and never exceeds the configured maximum of 4. -/
theorem c2_queueDepth_equals_queue_length_and_bounded (ops : List RadioOp) :
    (applyOps enabledInit ops).queueDepth =
      (applyOps enabledInit ops).rxQueue.length ∧
    (applyOps enabledInit ops).queueDepth ≤
      MICROBIT_RADIO_MAXIMUM_RX_BUFFERS :=
  queueInv_applyOps ops enabledInit ⟨rfl, by decide⟩

/-- C3: when the receive queue is already at the configured maximum depth,
`queueRxBuf` returns DEVICE_NO_RESOURCES and leaves the whole state —
queue, `queueDepth`, and active buffer pointer — unchanged, whatever the
allocation would have produced. -/
theorem c3_enqueue_on_full_queue_rejected_unchanged (st : RadioState)
    (buf : SequencedFrameBuffer) (alloc : Option SequencedFrameBuffer)
    (hbuf : st.rxBuf = some buf)
    (hfull : MICROBIT_RADIO_MAXIMUM_RX_BUFFERS ≤ st.queueDepth) :
    queueRxBuf st alloc = (DEVICE_NO_RESOURCES, st) := by
  unfold queueRxBuf
  rw [hbuf]
  simp only []
  rw [if_pos hfull]

/-- Witness for C3's theorem: a concrete state with four queued frames. -/
theorem c3_enqueue_on_full_queue_rejected_unchanged_witness :
    queueRxBuf { enabledInit with queueDepth := 4, rxQueue := [zeroFrame, zeroFrame, zeroFrame, zeroFrame] } (some zeroFrame) =
    (DEVICE_NO_RESOURCES, { enabledInit with queueDepth := 4, rxQueue := [zeroFrame, zeroFrame, zeroFrame, zeroFrame] }) :=
  c3_enqueue_on_full_queue_rejected_unchanged
    { enabledInit with queueDepth := 4, rxQueue := [zeroFrame, zeroFrame, zeroFrame, zeroFrame] }
    zeroFrame (some zeroFrame) rfl (by decide)

/-- C4 (code_bug evidence): sending a 10-byte datagram stamps the frame's
length field with 10 + MICROBIT_MESH_RADIO_HEADER_SIZE - 1 = 13, not the
14 = 4 + 10 required for a field that counts the four header bytes
(version, group, protocol, sequence) following it plus the payload. -/
theorem c4_ten_byte_datagram_stamps_length_13 :
    (datagramSendFrame enabledInit (some [0, 1, 2, 3, 4, 5, 6, 7, 8, 9]) 10).map
      SequencedFrameBuffer.length = some 13 ∧ (13 : Nat) ≠ 4 + 10 := by
  decide

/-- C5: when allocation of the replacement receive buffer fails during
`queueRxBuf` (and the queue is not full), the call returns
DEVICE_NO_RESOURCES with the in-flight frame neither enqueued nor
released: the receive queue and `queueDepth` are unchanged and the active
buffer pointer still holds the same buffer (with the pending RSSI value
stamped into it).  A subsequent call in which allocation succeeds enqueues
that frame normally. -/
theorem c5_alloc_failure_stalls_reception_then_recovers (st : RadioState)
    (buf : SequencedFrameBuffer) (hbuf : st.rxBuf = some buf)
    (hroom : st.queueDepth < MICROBIT_RADIO_MAXIMUM_RX_BUFFERS) :
    (queueRxBuf st none).1 = DEVICE_NO_RESOURCES ∧
    (queueRxBuf st none).2.rxQueue = st.rxQueue ∧
    (queueRxBuf st none).2.queueDepth = st.queueDepth ∧
    (queueRxBuf st none).2.rxBuf = some { buf with rssi := getRSSI st } ∧
    (∀ nb : SequencedFrameBuffer,
      (queueRxBuf (queueRxBuf st none).2 (some nb)).1 = DEVICE_OK ∧
      (queueRxBuf (queueRxBuf st none).2 (some nb)).2.rxQueue =
        st.rxQueue ++ [ { buf with rssi := getRSSI st } ] ∧
      (queueRxBuf (queueRxBuf st none).2 (some nb)).2.queueDepth =
        st.queueDepth + 1 ∧
      (queueRxBuf (queueRxBuf st none).2 (some nb)).2.rxBuf = some nb) := by
  have hne : ¬ MICROBIT_RADIO_MAXIMUM_RX_BUFFERS ≤ st.queueDepth :=
    Nat.not_le.mpr hroom
  have hfail : queueRxBuf st none =
      (DEVICE_NO_RESOURCES, { st with rxBuf := some { buf with rssi := getRSSI st } }) := by
    unfold queueRxBuf
    rw [hbuf]
    simp only []
    rw [if_neg hne]
  refine ⟨by rw [hfail], by rw [hfail], by rw [hfail], by rw [hfail], ?_⟩
  intro nb
  have hok : queueRxBuf (queueRxBuf st none).2 (some nb) =
      (DEVICE_OK,
       { st with
         rxQueue := st.rxQueue ++ [ { buf with rssi := getRSSI st } ],
         queueDepth := (st.queueDepth + 1) % 256,
         rxBuf := some nb }) := by
    rw [hfail]
    unfold queueRxBuf
    simp only []
    rw [if_neg hne]
    unfold getRSSI
    simp only []
  have hmod : (st.queueDepth + 1) % 256 = st.queueDepth + 1 := by
    unfold MICROBIT_RADIO_MAXIMUM_RX_BUFFERS at hroom
    omega
  refine ⟨by rw [hok], by rw [hok], by rw [hok, hmod], by rw [hok]⟩

/-- C6 counterexample: with the internal datagram queue already holding 4
frames (the claimed maximum), `packetReceived` does not drop the new
arrival — it appends it, growing the queue to 5 frames.  The tail walk
counts `length - 1 = 3`, which is below the bound of 4 that the source
compares against. -/
theorem c6_counterexample_four_deep_internal_queue_appends :
    ((dgPacketReceived
        { radioState := { enabledInit with rxQueue := [zeroFrame], queueDepth := 1 },
          dgQueue := [zeroFrame, zeroFrame, zeroFrame, zeroFrame],
          evQueue := [], events := [] }).map
      (fun t => t.dgQueue.length)) = some 5 ∧ (5 : Nat) ≠ 4 := by
  decide

/-- C6 amended: the datagram service's internal queue is bounded by 5
frames, one more than the radio receive queue's maximum of 4:
`packetReceived` appends the new frame at the tail when the internal
queue holds at most 4 frames and drops (frees) the new arrival, leaving
the queue unchanged, when the queue already holds 5 or more — because the
tail walk counts the queue length minus one against the maximum of 4. -/
theorem c6_internal_queue_bounded_by_five (s : SystemState)
    (p : SequencedFrameBuffer) (rest : List SequencedFrameBuffer)
    (hq : s.radioState.rxQueue = p :: rest) :
    (s.dgQueue.length ≤ 4 →
      (dgPacketReceived s).map SystemState.dgQueue =
        some (s.dgQueue ++ [p])) ∧
    (5 ≤ s.dgQueue.length →
      (dgPacketReceived s).map SystemState.dgQueue = some s.dgQueue) ∧
    (∀ t, dgPacketReceived s = some t →
      s.dgQueue.length ≤ 5 → t.dgQueue.length ≤ 5) := by
  unfold dgPacketReceived
  rw [recv_cons s.radioState p rest hq]
  simp only []
  cases hdq : s.dgQueue with
  | nil =>
    have hc : ¬((([] : List SequencedFrameBuffer) ≠ []) ∧
        tailWalkDepth [] ≥ MICROBIT_MESH_RADIO_MAXIMUM_RX_BUFFERS) := by simp
    rw [if_neg hc]
    refine ⟨fun _ => rfl, ?_, ?_⟩
    · intro habs
      simp at habs
    · intro t ht _
      cases ht
      show (dgEnqueueInternal [] p).length ≤ 5
      have hsingle : dgEnqueueInternal [] p = [p] := rfl
      rw [hsingle]
      simp
  | cons x xs =>
    have hwd : tailWalkDepth (x :: xs) = (x :: xs).length - 1 :=
      tailWalkDepth_eq (x :: xs) (by simp)
    by_cases hlen : 5 ≤ (x :: xs).length
    · have hc : ((x :: xs : List SequencedFrameBuffer) ≠ []) ∧
          tailWalkDepth (x :: xs) ≥ MICROBIT_MESH_RADIO_MAXIMUM_RX_BUFFERS := by
        refine ⟨by simp, ?_⟩
        rw [hwd]
        unfold MICROBIT_MESH_RADIO_MAXIMUM_RX_BUFFERS
        omega
      rw [if_pos hc]
      refine ⟨?_, fun _ => rfl, ?_⟩
      · intro habs
        omega
      · intro t ht hb
        cases ht
        exact hb
    · have hge : ¬ tailWalkDepth (x :: xs) ≥ MICROBIT_MESH_RADIO_MAXIMUM_RX_BUFFERS := by
        rw [hwd]
        unfold MICROBIT_MESH_RADIO_MAXIMUM_RX_BUFFERS
        omega
      have hc : ¬(((x :: xs : List SequencedFrameBuffer) ≠ []) ∧
          tailWalkDepth (x :: xs) ≥ MICROBIT_MESH_RADIO_MAXIMUM_RX_BUFFERS) := by
        rintro ⟨-, h⟩
        exact hge h
      rw [if_neg hc]
      have henq : dgEnqueueInternal (x :: xs) p = (x :: xs) ++ [p] := by
        unfold dgEnqueueInternal
        simp only []
        rw [if_neg hge]
      refine ⟨?_, ?_, ?_⟩
      · intro _
        show some (dgEnqueueInternal (x :: xs) p) = some ((x :: xs) ++ [p])
        rw [henq]
      · intro habs
        omega
      · intro t ht hb
        cases ht
        show (dgEnqueueInternal (x :: xs) p).length ≤ 5
        rw [henq]
        simp only [List.length_append, List.length_singleton,
          List.length_cons, List.length_nil] at hlen hb ⊢
        omega

/-- Witness for C6's amended theorem: a packet arriving at an empty
internal queue is appended as its sole element. -/
theorem c6_internal_queue_bounded_by_five_witness :
    (dgPacketReceived
        { radioState := { enabledInit with rxQueue := [zeroFrame], queueDepth := 1 },
          dgQueue := [], evQueue := [], events := [] }).map
      SystemState.dgQueue = some [zeroFrame] :=
  (c6_internal_queue_bounded_by_five
    { radioState := { enabledInit with rxQueue := [zeroFrame], queueDepth := 1 },
      dgQueue := [], evQueue := [], events := [] }
    zeroFrame [] rfl).1 (by decide)

/-- Witness for C5's theorem at the freshly enabled state. -/
theorem c5_alloc_failure_stalls_reception_then_recovers_witness :
    (queueRxBuf enabledInit none).1 = DEVICE_NO_RESOURCES ∧
    (queueRxBuf enabledInit none).2.rxQueue = [] ∧
    (queueRxBuf (queueRxBuf enabledInit none).2 (some zeroFrame)).1 =
      DEVICE_OK :=
  ⟨(c5_alloc_failure_stalls_reception_then_recovers enabledInit zeroFrame rfl
      (by decide)).1,
   (c5_alloc_failure_stalls_reception_then_recovers enabledInit zeroFrame rfl
      (by decide)).2.1,
   ((c5_alloc_failure_stalls_reception_then_recovers enabledInit zeroFrame rfl
      (by decide)).2.2.2.2 zeroFrame).1⟩

/-- C7: composing the datagram send's frame construction with the
datagram recv's extraction returns exactly the original payload bytes:
the stamped length field minus (MICROBIT_MESH_RADIO_HEADER_SIZE - 1)
recovers the payload byte count, so for a sufficiently large caller
buffer the stored bytes equal the input and the returned count equals the
input length. -/
theorem c7_datagram_send_recv_roundtrip (st : RadioState)
    (bytes : List Nat) (len : Int) (frame : SequencedFrameBuffer)
    (hn : bytes.length ≤ MICROBIT_RADIO_MAX_PACKET_SIZE)
    (hlen : (bytes.length : Int) ≤ len)
    (hsend : datagramSendFrame st (some bytes) (bytes.length : Int) =
      some frame) :
    (datagramRecv true [frame] len).ret = (bytes.length : Int) ∧
    (datagramRecv true [frame] len).stored = bytes ∧
    (datagramRecv true [frame] len).rxQueue = [] := by
  unfold MICROBIT_RADIO_MAX_PACKET_SIZE at hn
  have hg : ¬((bytes.length : Int) < 0 ∨
      (bytes.length : Int) > (MICROBIT_RADIO_MAX_PACKET_SIZE : Int) +
        (MICROBIT_MESH_RADIO_HEADER_SIZE : Int) - 1) := by
    unfold MICROBIT_RADIO_MAX_PACKET_SIZE MICROBIT_MESH_RADIO_HEADER_SIZE
    push_cast
    omega
  unfold datagramSendFrame at hsend
  simp only [] at hsend
  rw [if_neg hg] at hsend
  have hframe := Option.some.inj hsend
  have hflen : frame.length = bytes.length + 3 := by
    rw [← hframe]
    show ((bytes.length : Int).toNat + MICROBIT_MESH_RADIO_HEADER_SIZE - 1) %
      256 = bytes.length + 3
    rw [Int.toNat_natCast]
    unfold MICROBIT_MESH_RADIO_HEADER_SIZE
    omega
  have hfpay : frame.payload = bytes := by
    rw [← hframe]
    show bytes.take (bytes.length : Int).toNat = bytes
    rw [Int.toNat_natCast]
    exact List.take_length bytes
  have hl : min len ((frame.length : Int) -
      ((MICROBIT_MESH_RADIO_HEADER_SIZE : Int) - 1)) = (bytes.length : Int) := by
    rw [hflen]
    have hx : (((bytes.length + 3 : Nat) : Int) -
        ((MICROBIT_MESH_RADIO_HEADER_SIZE : Int) - 1)) = (bytes.length : Int) := by
      unfold MICROBIT_MESH_RADIO_HEADER_SIZE
      push_cast
      ring
    rw [hx]
    exact min_eq_right hlen
  have hguard : ¬(true = false ∨ len < 0) := by
    simp only [Bool.true_eq_false, false_or, not_lt]
    omega
  have heq : datagramRecv true [frame] len =
      ⟨(bytes.length : Int), [],
       frame.payload.take (bytes.length : Int).toNat, (bytes.length : Int)⟩ := by
    unfold datagramRecv
    rw [if_neg hguard]
    simp only []
    rw [hl]
  refine ⟨by rw [heq], ?_, by rw [heq]⟩
  rw [heq]
  show frame.payload.take (bytes.length : Int).toNat = bytes
  rw [Int.toNat_natCast, hfpay]
  exact List.take_length bytes

/-- Witness for C7's theorem: a 3-byte payload round-trips exactly. -/
theorem c7_datagram_send_recv_roundtrip_witness :
    (datagramRecv true [ { length := 6, version := 1, group := 0, protocol := 1, seqNo := 0, payload := [7, 8, 9], rssi := 0 } ] 10).ret = ((3 : Nat) : Int) ∧
    (datagramRecv true [ { length := 6, version := 1, group := 0, protocol := 1, seqNo := 0, payload := [7, 8, 9], rssi := 0 } ] 10).stored = [7, 8, 9] ∧
    (datagramRecv true [ { length := 6, version := 1, group := 0, protocol := 1, seqNo := 0, payload := [7, 8, 9], rssi := 0 } ] 10).rxQueue = [] :=
  c7_datagram_send_recv_roundtrip enabledInit [7, 8, 9] 10
    { length := 6, version := 1, group := 0, protocol := 1, seqNo := 0, payload := [7, 8, 9], rssi := 0 }
    (by decide) (by decide) (by decide)

/-- C8: for a head frame whose protocol is neither datagram (1) nor
event-bus (2), one iteration of the idle-drain loop raises the generic
data-ready notification and itself dequeues the frame; every iteration
removes exactly the head frame, so `idleCallback` terminates with the
receive queue empty (the event-bus handler, absent from this repository,
is modelled from the spec as consuming the head frame). -/
theorem c8_idle_drain_makes_forward_progress (s : SystemState) :
    (∀ p rest, s.radioState.rxQueue = p :: rest →
      (idleStep s).radioState.rxQueue = rest ∧
      (p.protocol ≠ MICROBIT_RADIO_PROTOCOL_DATAGRAM →
        p.protocol ≠ MICROBIT_RADIO_PROTOCOL_EVENTBUS →
        idleStep s = { s with
          radioState := (recv s.radioState).2,
          events := s.events ++
            [( DEVICE_ID_RADIO_DATA_READY, p.protocol)] })) ∧
    (idleCallback s).radioState.rxQueue = [] := by
  refine ⟨?_, idleLoop_drains s.radioState.rxQueue.length s le_rfl⟩
  intro p rest h
  refine ⟨idleStep_rxQueue s p rest h, ?_⟩
  intro h1 h2
  unfold idleStep
  rw [h]
  simp only []
  rw [if_neg h1, if_neg h2]

/-- Witness for C8's theorem: a single queued frame with unknown protocol
7 is dequeued by dispatch itself, and the drain loop empties the queue. -/
theorem c8_idle_drain_makes_forward_progress_witness :
    (idleStep { radioState := { enabledInit with rxQueue := [ { zeroFrame with protocol := 7 } ], queueDepth := 1 }, dgQueue := [], evQueue := [], events := [] }).radioState.rxQueue = [] ∧
    (idleCallback { radioState := { enabledInit with rxQueue := [ { zeroFrame with protocol := 7 } ], queueDepth := 1 }, dgQueue := [], evQueue := [], events := [] }).radioState.rxQueue = [] :=
  ⟨((c8_idle_drain_makes_forward_progress
      { radioState := { enabledInit with rxQueue := [ { zeroFrame with protocol := 7 } ], queueDepth := 1 }, dgQueue := [], evQueue := [], events := [] }).1
      { zeroFrame with protocol := 7 } [] rfl).1,
   (c8_idle_drain_makes_forward_progress
      { radioState := { enabledInit with rxQueue := [ { zeroFrame with protocol := 7 } ], queueDepth := 1 }, dgQueue := [], evQueue := [], events := [] }).2⟩

/-- C9: the datagram send's frame-construction writes constant header
fields — version 1, group 0, protocol 1 (datagram) — reading nothing from
the radio's configured state: even after `setGroup` records a different
group id in the radio, the constructed frame's group field is still 0,
and the construction yields the same frame from any radio state. -/
theorem c9_datagram_header_fields_constant (st st2 : RadioState) (g : Nat)
    (bytes : List Nat) (len : Int) (frame : SequencedFrameBuffer)
    (hsend : datagramSendFrame (setGroup st false g).2 (some bytes) len =
      some frame) :
    frame.version = 1 ∧ frame.group = 0 ∧
    frame.protocol = MICROBIT_RADIO_PROTOCOL_DATAGRAM ∧
    datagramSendFrame st2 (some bytes) len =
      datagramSendFrame (setGroup st false g).2 (some bytes) len := by
  unfold datagramSendFrame at hsend ⊢
  simp only [] at hsend ⊢
  by_cases hg : len < 0 ∨
      len > (MICROBIT_RADIO_MAX_PACKET_SIZE : Int) +
        (MICROBIT_MESH_RADIO_HEADER_SIZE : Int) - 1
  · rw [if_pos hg] at hsend
    exact absurd hsend (by simp)
  · rw [if_neg hg] at hsend
    have hframe := Option.some.inj hsend
    refine ⟨?_, ?_, ?_, trivial⟩ <;> rw [← hframe]

/-- Witness for C9's theorem: after joining group 42, a 2-byte datagram
frame still carries version 1, group 0, protocol 1. -/
theorem c9_datagram_header_fields_constant_witness :
    ({ length := 5, version := 1, group := 0, protocol := 1, seqNo := 0,
       payload := [1, 2], rssi := 0 } : SequencedFrameBuffer).version = 1 ∧
    ({ length := 5, version := 1, group := 0, protocol := 1, seqNo := 0,
       payload := [1, 2], rssi := 0 } : SequencedFrameBuffer).group = 0 ∧
    ({ length := 5, version := 1, group := 0, protocol := 1, seqNo := 0,
       payload := [1, 2], rssi := 0 } : SequencedFrameBuffer).protocol =
      MICROBIT_RADIO_PROTOCOL_DATAGRAM ∧
    datagramSendFrame initRadioState (some [1, 2]) 2 =
      datagramSendFrame (setGroup enabledInit false 42).2 (some [1, 2]) 2 :=
  c9_datagram_header_fields_constant enabledInit initRadioState 42 [1, 2] 2
    { length := 5, version := 1, group := 0, protocol := 1, seqNo := 0,
      payload := [1, 2], rssi := 0 }
    (by decide)

/-- C10: when the head frame's length field is below
MICROBIT_MESH_RADIO_HEADER_SIZE - 1 = 3, datagram `recv` with a valid
buffer and non-negative caller capacity computes the negative count
length - 3, returns it instead of a non-negative byte count, passes it as
the size argument of the copy into the caller's buffer, and still
consumes (dequeues) the frame. -/
theorem c10_short_length_frame_negative_copy_count
    (p : SequencedFrameBuffer) (rest : List SequencedFrameBuffer)
    (len : Int) (hshort : p.length < MICROBIT_MESH_RADIO_HEADER_SIZE - 1)
    (hlen : 0 ≤ len) :
    (datagramRecv true (p :: rest) len).ret = (p.length : Int) - 3 ∧
    (datagramRecv true (p :: rest) len).ret < 0 ∧
    (datagramRecv true (p :: rest) len).copySize =
      (datagramRecv true (p :: rest) len).ret ∧
    (datagramRecv true (p :: rest) len).rxQueue = rest := by
  unfold MICROBIT_MESH_RADIO_HEADER_SIZE at hshort
  have hguard : ¬(true = false ∨ len < 0) := by
    simp only [Bool.true_eq_false, false_or, not_lt]
    exact hlen
  have hmin : min len ((p.length : Int) -
      ((MICROBIT_MESH_RADIO_HEADER_SIZE : Int) - 1)) = (p.length : Int) - 3 := by
    have hx : ((p.length : Int) - ((MICROBIT_MESH_RADIO_HEADER_SIZE : Int) - 1)) =
        (p.length : Int) - 3 := by
      unfold MICROBIT_MESH_RADIO_HEADER_SIZE
      push_cast
      ring
    rw [hx]
    exact min_eq_right (by omega)
  have heq : datagramRecv true (p :: rest) len =
      ⟨(p.length : Int) - 3, rest,
       p.payload.take ((p.length : Int) - 3).toNat, (p.length : Int) - 3⟩ := by
    unfold datagramRecv
    rw [if_neg hguard]
    simp only []
    rw [hmin]
  refine ⟨by rw [heq], ?_, by rw [heq], by rw [heq]⟩
  rw [heq]
  show (p.length : Int) - 3 < 0
  omega

/-- Witness for C10's theorem: a head frame with length field 1 makes
`recv` return -2 and pass -2 to the copy, while the frame is dequeued. -/
theorem c10_short_length_frame_negative_copy_count_witness :
    (datagramRecv true [ { zeroFrame with length := 1 } ] 5).ret =
      (((1 : Nat) : Int) - 3) ∧
    (datagramRecv true [ { zeroFrame with length := 1 } ] 5).ret < 0 ∧
    (datagramRecv true [ { zeroFrame with length := 1 } ] 5).copySize =
      (datagramRecv true [ { zeroFrame with length := 1 } ] 5).ret ∧
    (datagramRecv true [ { zeroFrame with length := 1 } ] 5).rxQueue = [] :=
  c10_short_length_frame_negative_copy_count
    { zeroFrame with length := 1 } [] 5 (by decide) (by decide)

end MeshRadio
